import Mathlib

/-!
Verification of the cco-pinai synchronization engine.

This file gives a shallow embedding, in Lean 4, of the sync/reconciliation
core of the repository: the Limitless lifelog sync service
(services/sync.py), the Supabase transcript/sync-state store
(services/database.py), the lifelog provider adapter (services/limitless.py),
and the calendar sync pieces (services/calendar_sync.py,
services/google_calendar.py).

Modelling conventions:
- `datetime` values are integers (seconds); `date` values are natural
  numbers (day counts), and `date.isoformat()` is rendered as `toString`.
- Python truthiness of an optional string (None and "" are falsy) is
  `optTruthy`.
- The external database is a pure in-memory store threaded through the
  functions; an external write that may raise is modelled by an oracle
  telling whether the write succeeds.
- Remote APIs are parameters returning `Except`; a raised provider
  exception is the `.error` case.
- Unbounded `while` loops take a fuel argument; running out of fuel is
  `Option.none` at the top level.
-/

namespace CcoPinai

/-- Python truthiness of an optional string: `None` and `""` are falsy. -/
def optTruthy : Option String → Bool
  | none => false
  | some s => s ≠ ""

/-! ## Lifelog provider data (services/limitless.py) -/

/-- `LifelogEntry` (services/limitless.py): one lifelog record. -/
structure LifelogEntry where
  id : String
  title : String
  content : String
  markdown : String
  created_at : Int
  updated_at : Int
  audio_url : Option String := none
  transcript_text : Option String := none
deriving Repr, DecidableEq

/-! ## Transcript store (services/database.py) -/

/-- The `raw_content` JSON blob stored on a transcript row. -/
structure RawContent where
  title : String
  content : String
  markdown : String
  created_at : Int
  updated_at : Int
deriving Repr, DecidableEq

/-- One row of the `transcripts` table. -/
structure Transcript where
  id : Nat
  user_id : String
  title : String
  limitless_id : String
  source : String
  audio_url : Option String
  transcript_text : Option String
  status : String
  raw_content : RawContent
  processed_at : Int
  created_at : Int
  updated_at : Int
deriving Repr, DecidableEq

/-- The `transcripts` table: rows plus the next auto-generated row id. -/
structure TranscriptStore where
  rows : List Transcript
  nextId : Nat
deriving Repr, DecidableEq

/-- The inserted title: `lifelog.title or f"Limitless Recording {lifelog.id[:8]}"`. -/
def transcriptTitle (lifelog : LifelogEntry) : String :=
  if lifelog.title = "" then "Limitless Recording " ++ lifelog.id.take 8 else lifelog.title

/-- The `raw_content` payload built from a lifelog in both save paths. -/
def rawContentOf (lifelog : LifelogEntry) : RawContent :=
  { title := lifelog.title
    content := lifelog.content
    markdown := lifelog.markdown
    created_at := lifelog.created_at
    updated_at := lifelog.updated_at }

/-- `DatabaseService._create_new_transcript`: insert a fresh transcript row. -/
def create_new_transcript (db : TranscriptStore) (lifelog : LifelogEntry)
    (user_id : String) (now : Int) : TranscriptStore :=
  let t : Transcript :=
    { id := db.nextId
      user_id := user_id
      title := transcriptTitle lifelog
      limitless_id := lifelog.id
      source := "limitless"
      audio_url := lifelog.audio_url
      transcript_text := lifelog.transcript_text
      status := "completed"
      raw_content := rawContentOf lifelog
      processed_at := now
      created_at := lifelog.created_at
      updated_at := lifelog.updated_at }
  { rows := db.rows ++ [t], nextId := db.nextId + 1 }

/-- The row update performed by `DatabaseService._update_existing_transcript`:
`audio_url` is replaced only when the lifelog's `audio_url` is truthy. -/
def updateTranscriptRow (t : Transcript) (lifelog : LifelogEntry) (now : Int) : Transcript :=
  let t1 := { t with
    transcript_text := lifelog.transcript_text
    raw_content := rawContentOf lifelog
    processed_at := now
    updated_at := now }
  if optTruthy lifelog.audio_url then { t1 with audio_url := lifelog.audio_url } else t1

/-- `DatabaseService._update_existing_transcript`: `UPDATE ... WHERE id = existingId`. -/
def update_existing_transcript (db : TranscriptStore) (existingId : Nat)
    (lifelog : LifelogEntry) (now : Int) : TranscriptStore :=
  { db with rows := db.rows.map fun t =>
      if t.id == existingId then updateTranscriptRow t lifelog now else t }

/-- The existence query in `save_lifelog_as_transcript`:
`SELECT * FROM transcripts WHERE limitless_id = lifelog.id AND user_id = user_id`,
taking the first hit as the code does with `existing.data[0]`. -/
def findTranscript (db : TranscriptStore) (limitless_id user_id : String) : Option Transcript :=
  db.rows.find? fun t => t.limitless_id == limitless_id && t.user_id == user_id

/-- `DatabaseService.save_lifelog_as_transcript`: update the existing row for
`(user_id, lifelog.id)` when one exists, otherwise insert a new row. -/
def save_lifelog_as_transcript (db : TranscriptStore) (lifelog : LifelogEntry)
    (user_id : String) (now : Int) : TranscriptStore :=
  match findTranscript db lifelog.id user_id with
  | some existing => update_existing_transcript db existing.id lifelog now
  | none => create_new_transcript db lifelog user_id now

/-- Number of transcript rows keyed by `(user_id, limitless_id)`. -/
def countKey (db : TranscriptStore) (limitless_id user_id : String) : Nat :=
  db.rows.countP fun t => t.limitless_id == limitless_id && t.user_id == user_id

/-! ### Helper lemmas about the transcript store -/

theorem updateTranscriptRow_limitless_id (t : Transcript) (l : LifelogEntry) (now : Int) :
    (updateTranscriptRow t l now).limitless_id = t.limitless_id := by
  unfold updateTranscriptRow
  by_cases h : optTruthy l.audio_url <;> simp [h]

theorem updateTranscriptRow_user_id (t : Transcript) (l : LifelogEntry) (now : Int) :
    (updateTranscriptRow t l now).user_id = t.user_id := by
  unfold updateTranscriptRow
  by_cases h : optTruthy l.audio_url <;> simp [h]

theorem countKey_update (db : TranscriptStore) (i : Nat) (l : LifelogEntry)
    (now : Int) (lid uid : String) :
    countKey (update_existing_transcript db i l now) lid uid = countKey db lid uid := by
  unfold countKey update_existing_transcript
  simp only [List.countP_map]
  apply List.countP_congr
  intro t _
  by_cases h : t.id == i
  · simp [h, Function.comp, updateTranscriptRow_limitless_id, updateTranscriptRow_user_id]
  · simp [h, Function.comp]

theorem rowsLength_update (db : TranscriptStore) (i : Nat) (l : LifelogEntry) (now : Int) :
    (update_existing_transcript db i l now).rows.length = db.rows.length := by
  unfold update_existing_transcript
  simp

theorem countKey_create (db : TranscriptStore) (l : LifelogEntry) (uid : String) (now : Int) :
    countKey (create_new_transcript db l uid now) l.id uid = countKey db l.id uid + 1 := by
  unfold countKey create_new_transcript
  simp [List.countP_append, List.countP_cons]

theorem findTranscript_none (db : TranscriptStore) (lid uid : String)
    (h : findTranscript db lid uid = none) : countKey db lid uid = 0 := by
  unfold findTranscript at h
  unfold countKey
  rw [List.countP_eq_zero]
  intro t ht
  have := List.find?_eq_none.mp h t ht
  simpa using this

theorem findTranscript_some_pos (db : TranscriptStore) (lid uid : String) (t : Transcript)
    (h : findTranscript db lid uid = some t) : 0 < countKey db lid uid := by
  unfold findTranscript at h
  have hmem := List.mem_of_find?_eq_some h
  have hp := List.find?_some h
  unfold countKey
  rw [List.countP_pos]
  exact ⟨t, hmem, hp⟩

theorem countKey_pos_find (db : TranscriptStore) (lid uid : String)
    (h : 0 < countKey db lid uid) : ∃ t, findTranscript db lid uid = some t := by
  unfold countKey at h
  rw [List.countP_pos] at h
  obtain ⟨t, hmem, hp⟩ := h
  unfold findTranscript
  rcases hfind : db.rows.find? (fun t => t.limitless_id == lid && t.user_id == uid) with _ | t0
  · exact absurd hp (by simpa using List.find?_eq_none.mp hfind t hmem)
  · exact ⟨t0, hfind⟩

/-- After one save, exactly one row carries the key `(user_id, lifelog.id)`,
provided the store held at most one such row before. -/
theorem countKey_save (db : TranscriptStore) (l : LifelogEntry) (uid : String) (now : Int)
    (h : countKey db l.id uid ≤ 1) :
    countKey (save_lifelog_as_transcript db l uid now) l.id uid = 1 := by
  unfold save_lifelog_as_transcript
  rcases hf : findTranscript db l.id uid with _ | t
  · rw [countKey_create, findTranscript_none db l.id uid hf]
  · rw [countKey_update]
    exact Nat.le_antisymm h (findTranscript_some_pos db l.id uid t hf)

/-- C1: saving the same lifelog twice for the same user leaves exactly one
transcript row keyed by `(user_id, limitless_id)`, and the second call updates
the existing row in place — it adds no row. -/
theorem save_lifelog_twice_one_row (db : TranscriptStore) (l : LifelogEntry)
    (uid : String) (now1 now2 : Int) (h : countKey db l.id uid ≤ 1) :
    countKey (save_lifelog_as_transcript (save_lifelog_as_transcript db l uid now1) l uid now2)
        l.id uid = 1 ∧
    (save_lifelog_as_transcript (save_lifelog_as_transcript db l uid now1) l uid now2).rows.length
      = (save_lifelog_as_transcript db l uid now1).rows.length := by
  have h1 : countKey (save_lifelog_as_transcript db l uid now1) l.id uid = 1 :=
    countKey_save db l uid now1 h
  constructor
  · exact countKey_save _ l uid now2 (le_of_eq h1)
  · set db1 := save_lifelog_as_transcript db l uid now1 with hdb1
    obtain ⟨t, ht⟩ := countKey_pos_find db1 l.id uid (by omega)
    unfold save_lifelog_as_transcript
    rw [ht]
    exact rowsLength_update _ _ _ _

/-- Witness for C1 at a concrete store and lifelog. -/
theorem save_lifelog_twice_one_row_witness :
    let l : LifelogEntry :=
      { id := "log1", title := "t", content := "c", markdown := "m"
        created_at := 0, updated_at := 0 }
    let db : TranscriptStore := { rows := [], nextId := 0 }
    countKey (save_lifelog_as_transcript (save_lifelog_as_transcript db l "u" 5) l "u" 9)
        l.id "u" = 1 ∧
    (save_lifelog_as_transcript (save_lifelog_as_transcript db l "u" 5) l "u" 9).rows.length
      = (save_lifelog_as_transcript db l "u" 5).rows.length :=
  save_lifelog_twice_one_row _ _ _ _ _ (by decide)

/-! ## Sync-state and error tables (services/database.py) -/

/-- One row of the `sync_state` table. -/
structure SyncStateRow where
  user_id : String
  service_name : String
  last_sync_date : Nat
  last_cursor : Option String
  total_synced : Nat
  last_sync_at : Int
deriving Repr, DecidableEq

/-- One row of the append-only `sync_errors` table; `details_date` is the
`error_details["date"]` payload. -/
structure SyncErrorRow where
  user_id : String
  service_name : String
  error_message : String
  details_date : String
  occurred_at : Int
deriving Repr, DecidableEq

/-- `DatabaseService.save_sync_state`: upsert on `(user_id, service_name)`. -/
def save_sync_state (states : List SyncStateRow) (row : SyncStateRow) : List SyncStateRow :=
  if states.any (fun s => s.user_id == row.user_id && s.service_name == row.service_name) then
    states.map fun s =>
      if s.user_id == row.user_id && s.service_name == row.service_name then row else s
  else states ++ [row]

/-- `DatabaseService.get_sync_state`: first row for `(user_id, service_name)`. -/
def get_sync_state (states : List SyncStateRow) (user service : String) : Option SyncStateRow :=
  states.find? fun s => s.user_id == user && s.service_name == service

/-- The combined external store the sync engine mutates. -/
structure World where
  transcripts : TranscriptStore
  syncStates : List SyncStateRow
  syncErrors : List SyncErrorRow
deriving Repr, DecidableEq

/-! ## Lifelog provider adapter (services/limitless.py) -/

/-- One raw provider response page: the `data.lifelogs` items and the
`meta.lifelogs.nextCursor` field. -/
structure ApiPage where
  lifelogs : List LifelogEntry
  nextCursor : Option String
deriving Repr, DecidableEq

/-- The shape `LimitlessService.list_lifelogs_by_date` returns. -/
structure PageResult where
  lifelogs : List LifelogEntry
  next_cursor : Option String
  has_more : Bool
deriving Repr, DecidableEq

/-- `LimitlessService.list_lifelogs_by_date` over an abstract remote API
(`api` maps a cursor to a raw page or a raised `LimitlessAPIError`):
`has_more := bool(meta.get("nextCursor"))`. -/
def list_lifelogs_by_date (api : Option String → Except String ApiPage)
    (cursor : Option String) : Except String PageResult :=
  (api cursor).map fun p =>
    { lifelogs := p.lifelogs, next_cursor := p.nextCursor, has_more := optTruthy p.nextCursor }

/-! ## Lifelog sync engine (services/sync.py)

The external transcript write in `_save_lifelog_to_database` can raise (a
Supabase failure); the oracle `saveOk` tells, per lifelog, whether that write
succeeds. On success the write is the pure `save_lifelog_as_transcript`. -/

/-- `LimitlessSyncService._process_lifelog_batch`: save each lifelog of the
batch, counting successes; a failed save is caught and the loop continues. -/
def process_lifelog_batch (saveOk : LifelogEntry → Bool) (user : String) (now : Int) :
    TranscriptStore → List LifelogEntry → Nat × TranscriptStore
  | store, [] => (0, store)
  | store, l :: ls =>
    if saveOk l then
      let store1 := save_lifelog_as_transcript store l user now
      let r := process_lifelog_batch saveOk user now store1 ls
      (r.1 + 1, r.2)
    else
      process_lifelog_batch saveOk user now store ls

/-- The `while has_more` loop of `LimitlessSyncService._sync_date_with_cursor`.
A provider error is re-raised, carrying the store as already written by the
earlier pages of that date. -/
def sync_date_loop (api : Option String → Except String ApiPage)
    (saveOk : LifelogEntry → Bool) (user : String) (now : Int) :
    Nat → Option String → Nat → TranscriptStore →
    Option (Except (String × TranscriptStore) (Nat × TranscriptStore))
  | 0, _, _, _ => none
  | fuel + 1, cursor, acc, store =>
    match list_lifelogs_by_date api cursor with
    | .error e => some (.error (e, store))
    | .ok page =>
      let r := process_lifelog_batch saveOk user now store page.lifelogs
      if page.has_more then
        sync_date_loop api saveOk user now fuel page.next_cursor (acc + r.1) r.2
      else
        some (.ok (acc + r.1, r.2))

/-- `LimitlessSyncService._sync_date_with_cursor`: run the cursor loop for one
date, starting with no cursor and `has_more = True`. -/
def sync_date_with_cursor (api : Option String → Except String ApiPage)
    (saveOk : LifelogEntry → Bool) (user : String) (now : Int)
    (fuel : Nat) (store : TranscriptStore) :
    Option (Except (String × TranscriptStore) (Nat × TranscriptStore)) :=
  sync_date_loop api saveOk user now fuel none 0 store

/-- The `SyncState` dataclass returned by the sync run. -/
structure SyncRun where
  last_sync_date : Nat
  last_cursor : Option String
  total_synced : Nat
  errors : List String
deriving Repr, DecidableEq

/-- The error message built in `sync_from_date`'s except branch. -/
def sync_error_message (d : Nat) (e : String) : String :=
  "Error syncing " ++ toString d ++ ": " ++ e

/-- The date iteration of `sync_from_date` over the list of dates of the
range. `api` maps a date and cursor to the provider response. Besides the
run state and the store, the returned third component is the observation
history of the `save_sync_state` calls the loop makes, in order (the rows
passed at each call site); the store itself only retains the upsert result. -/
def sync_dates (api : Nat → Option String → Except String ApiPage)
    (saveOk : LifelogEntry → Bool) (fuel : Nat) (user : String) (now : Int) :
    List Nat → SyncRun → World → List SyncStateRow →
    Option (SyncRun × World × List SyncStateRow)
  | [], st, w, calls => some (st, w, calls)
  | d :: ds, st, w, calls =>
    match sync_date_with_cursor (api d) saveOk user now fuel w.transcripts with
    | none => none
    | some (.ok (n, ts)) =>
      let st1 := { st with total_synced := st.total_synced + n, last_sync_date := d }
      let row : SyncStateRow :=
        { user_id := user, service_name := "limitless", last_sync_date := d
          last_cursor := st1.last_cursor, total_synced := st1.total_synced
          last_sync_at := now }
      let w1 := { w with transcripts := ts, syncStates := save_sync_state w.syncStates row }
      sync_dates api saveOk fuel user now ds st1 w1 (calls ++ [row])
    | some (.error (e, ts)) =>
      let msg := sync_error_message d e
      let st1 := { st with errors := st.errors ++ [msg] }
      let row : SyncErrorRow :=
        { user_id := user, service_name := "limitless", error_message := msg
          details_date := toString d, occurred_at := now }
      let w1 := { w with transcripts := ts, syncErrors := w.syncErrors ++ [row] }
      sync_dates api saveOk fuel user now ds st1 w1 calls

/-- The inclusive date range `start..endD` the outer while loop iterates. -/
def dateRange (start endD : Nat) : List Nat :=
  (List.range (endD + 1 - start)).map fun i => start + i

/-- `LimitlessSyncService.sync_from_date`: validate the range, then iterate
the dates. A raised `ValueError` is the `.error` case and carries the store
as it stood when raised; fuel exhaustion inside a date is `.ok none`. -/
def sync_from_date (api : Nat → Option String → Except String ApiPage)
    (saveOk : LifelogEntry → Bool) (fuel : Nat) (user : String) (now : Int)
    (start : Nat) (endOpt : Option Nat) (today : Nat) (w : World) :
    Except (String × World) (Option (SyncRun × World × List SyncStateRow)) :=
  let endD := endOpt.getD today
  if endD < start then .error ("start_date cannot be after end_date", w)
  else
    let st0 : SyncRun :=
      { last_sync_date := start, last_cursor := none, total_synced := 0, errors := [] }
    .ok (sync_dates api saveOk fuel user now (dateRange start endD) st0 w [])

/-- `LimitlessSyncService.incremental_sync`: pick the start date from the
passed state, else from the stored sync state, else yesterday; then run
`sync_from_date` with no explicit end date. -/
def incremental_sync (api : Nat → Option String → Except String ApiPage)
    (saveOk : LifelogEntry → Bool) (fuel : Nat) (user : String) (now : Int)
    (last_sync_state : Option SyncRun) (today : Nat) (w : World) :
    Except (String × World) (Option (SyncRun × World × List SyncStateRow)) :=
  let start :=
    match last_sync_state with
    | some s => s.last_sync_date
    | none =>
      match get_sync_state w.syncStates user "limitless" with
      | some row => row.last_sync_date
      | none => today - 1
  sync_from_date api saveOk fuel user now start none today w

/-- C2: `incremental_sync` with no passed state starts from the stored
`last_sync_date` when a sync state row exists, and from `today - 1`
(yesterday) when none does; in both cases it is exactly `sync_from_date`
from that start date, so a stored date `D` is re-processed (not `D + 1`,
not history from scratch). -/
theorem incremental_sync_start_date (api : Nat → Option String → Except String ApiPage)
    (saveOk : LifelogEntry → Bool) (fuel : Nat) (user : String) (now : Int)
    (today : Nat) (w : World) :
    (∀ row, get_sync_state w.syncStates user "limitless" = some row →
      incremental_sync api saveOk fuel user now none today w
        = sync_from_date api saveOk fuel user now row.last_sync_date none today w) ∧
    (get_sync_state w.syncStates user "limitless" = none →
      incremental_sync api saveOk fuel user now none today w
        = sync_from_date api saveOk fuel user now (today - 1) none today w) := by
  constructor
  · intro row hrow
    unfold incremental_sync
    rw [hrow]
  · intro hnone
    unfold incremental_sync
    rw [hnone]

/-- Witness for C2: a stored state with date 7 resumes from 7; an empty
store starts from yesterday (day 8 when today is day 9). -/
theorem incremental_sync_start_date_witness :
    (incremental_sync (fun _ _ => .error "down") (fun _ => true) 1 "u" 0 none 9
        { transcripts := { rows := [], nextId := 0 }
          syncStates := [{ user_id := "u", service_name := "limitless", last_sync_date := 7
                           last_cursor := none, total_synced := 3, last_sync_at := 0 }]
          syncErrors := [] }
      = sync_from_date (fun _ _ => .error "down") (fun _ => true) 1 "u" 0 7 none 9
        { transcripts := { rows := [], nextId := 0 }
          syncStates := [{ user_id := "u", service_name := "limitless", last_sync_date := 7
                           last_cursor := none, total_synced := 3, last_sync_at := 0 }]
          syncErrors := [] }) ∧
    (incremental_sync (fun _ _ => .error "down") (fun _ => true) 1 "u" 0 none 9
        { transcripts := { rows := [], nextId := 0 }, syncStates := [], syncErrors := [] }
      = sync_from_date (fun _ _ => .error "down") (fun _ => true) 1 "u" 0 8 none 9
        { transcripts := { rows := [], nextId := 0 }, syncStates := [], syncErrors := [] }) :=
  ⟨(incremental_sync_start_date _ _ _ _ _ _ _).1
      { user_id := "u", service_name := "limitless", last_sync_date := 7
        last_cursor := none, total_synced := 3, last_sync_at := 0 } rfl,
   (incremental_sync_start_date _ _ _ _ _ _ _).2 rfl⟩

/-- C5: a range with `start > end` raises the validation `ValueError`
before any provider call or store write: for every provider and store, the
result is the error with the store exactly as passed in. -/
theorem sync_from_date_validates_range (api : Nat → Option String → Except String ApiPage)
    (saveOk : LifelogEntry → Bool) (fuel : Nat) (user : String) (now : Int)
    (start endD today : Nat) (w : World) (h : endD < start) :
    sync_from_date api saveOk fuel user now start (some endD) today w
      = .error ("start_date cannot be after end_date", w) := by
  unfold sync_from_date
  simp [h]

/-- Witness for C5 at `start = 5 > 3 = end`. -/
theorem sync_from_date_validates_range_witness :
    sync_from_date (fun _ _ => .error "down") (fun _ => true) 1 "u" 0 5 (some 3) 9
        { transcripts := { rows := [], nextId := 0 }, syncStates := [], syncErrors := [] }
      = .error ("start_date cannot be after end_date",
        { transcripts := { rows := [], nextId := 0 }, syncStates := [], syncErrors := [] }) :=
  sync_from_date_validates_range _ _ _ _ _ _ _ _ _ (by decide)

/-- C3: a date whose cursor sync raises an exception aborts only that date:
the loop appends the message naming the date to the run's error list,
appends a row to the `sync_errors` log, and continues with the remaining
dates; and a valid range never propagates a date's exception (the run
always returns normally). -/
theorem sync_date_error_continues (api : Nat → Option String → Except String ApiPage)
    (saveOk : LifelogEntry → Bool) (fuel : Nat) (user : String) (now : Int) :
    (∀ d ds st w calls e ts,
      sync_date_with_cursor (api d) saveOk user now fuel w.transcripts
          = some (.error (e, ts)) →
      sync_dates api saveOk fuel user now (d :: ds) st w calls
        = sync_dates api saveOk fuel user now ds
            { st with errors := st.errors ++ ["Error syncing " ++ toString d ++ ": " ++ e] }
            { w with transcripts := ts
                     syncErrors := w.syncErrors ++
                       [{ user_id := user, service_name := "limitless"
                          error_message := "Error syncing " ++ toString d ++ ": " ++ e
                          details_date := toString d, occurred_at := now }] }
            calls) ∧
    (∀ start endD today w, start ≤ endD →
      ∃ r, sync_from_date api saveOk fuel user now start (some endD) today w = .ok r) := by
  constructor
  · intro d ds st w calls e ts h
    simp only [sync_dates]
    rw [h]
    simp [sync_error_message]
  · intro start endD today w h
    refine ⟨sync_dates api saveOk fuel user now (dateRange start endD)
      { last_sync_date := start, last_cursor := none, total_synced := 0, errors := [] } w [], ?_⟩
    unfold sync_from_date
    simp [Nat.not_lt.mpr h]

/-- Witness for C3: with a provider that raises on date 0, the run records
the error for date 0 and proceeds with date 1 instead of aborting. -/
theorem sync_date_error_continues_witness :
    (sync_dates (fun _ _ => .error "boom") (fun _ => true) 1 "u" 0 [0, 1]
        { last_sync_date := 0, last_cursor := none, total_synced := 0, errors := [] }
        { transcripts := { rows := [], nextId := 0 }, syncStates := [], syncErrors := [] } []
      = sync_dates (fun _ _ => .error "boom") (fun _ => true) 1 "u" 0 [1]
          { last_sync_date := 0, last_cursor := none, total_synced := 0
            errors := ["Error syncing " ++ toString 0 ++ ": " ++ "boom"] }
          { transcripts := { rows := [], nextId := 0 }, syncStates := []
            syncErrors := [{ user_id := "u", service_name := "limitless"
                             error_message := "Error syncing " ++ toString 0 ++ ": " ++ "boom"
                             details_date := toString 0, occurred_at := 0 }] }
          []) ∧
    (∃ r, sync_from_date (fun _ _ => .error "boom") (fun _ => true) 1 "u" 0 0 (some 1) 9
        { transcripts := { rows := [], nextId := 0 }, syncStates := [], syncErrors := [] }
      = .ok r) :=
  ⟨(sync_date_error_continues _ _ _ _ _).1 0 [1] _ _ [] "boom" _ rfl,
   (sync_date_error_continues _ _ _ _ _).2 0 1 9 _ (by decide)⟩

/-- C4 counterexample: a one-date range whose date fails. The date 0 is
processed and errors, yet the run makes no `save_sync_state` call at all
(empty call history) and the `sync_state` table stays empty — the claim
requires a state persisted with date 0 after the failed date. -/
theorem sync_state_not_saved_on_failed_date :
    sync_from_date (fun _ _ => .error "boom") (fun _ => true) 1 "u" 0 0 (some 0) 0
        { transcripts := { rows := [], nextId := 0 }, syncStates := [], syncErrors := [] }
      = .ok (some (
          { last_sync_date := 0, last_cursor := none, total_synced := 0
            errors := ["Error syncing 0: boom"] },
          { transcripts := { rows := [], nextId := 0 }, syncStates := []
            syncErrors := [{ user_id := "u", service_name := "limitless"
                             error_message := "Error syncing 0: boom"
                             details_date := "0", occurred_at := 0 }] },
          [])) := by
  rfl

/-- The run's `last_cursor` field is never mutated, so every persisted
sync-state row carries the run's initial cursor value. -/
theorem sync_dates_calls_cursor (api : Nat → Option String → Except String ApiPage)
    (saveOk : LifelogEntry → Bool) (fuel : Nat) (user : String) (now : Int) :
    ∀ ds st w calls st1 w1 calls1,
      sync_dates api saveOk fuel user now ds st w calls = some (st1, w1, calls1) →
      st1.last_cursor = st.last_cursor ∧
      ∀ r ∈ calls1, r ∈ calls ∨ r.last_cursor = st.last_cursor := by
  intro ds
  induction ds with
  | nil =>
    intro st w calls st1 w1 calls1 h
    simp only [sync_dates, Option.some.injEq, Prod.mk.injEq] at h
    obtain ⟨h1, _, h3⟩ := h
    subst h1; subst h3
    exact ⟨rfl, fun r hr => Or.inl hr⟩
  | cons d ds ih =>
    intro st w calls st1 w1 calls1 h
    simp only [sync_dates] at h
    split at h
    · exact absurd h (by simp)
    · rename_i n ts heq
      obtain ⟨hc, hr⟩ := ih _ _ _ _ _ _ h
      refine ⟨by simpa using hc, fun r hrr => ?_⟩
      rcases hr r hrr with hmem | hcur
      · rcases List.mem_append.mp hmem with hmem2 | hrow
        · exact Or.inl hmem2
        · right
          have hreq : r = { user_id := user, service_name := "limitless", last_sync_date := d
                            last_cursor := st.last_cursor
                            total_synced := st.total_synced + n
                            last_sync_at := now } := by simpa using hrow
          rw [hreq]
      · right; simpa using hcur
    · obtain ⟨hc, hr⟩ := ih _ _ _ _ _ _ h
      refine ⟨by simpa using hc, fun r hrr => ?_⟩
      rcases hr r hrr with hmem | hcur
      · exact Or.inl hmem
      · right; simpa using hcur

/-- C4 (amended): after each successfully processed date the sync state is
persisted with that date, the run's cursor field, and the running total; a
failed date persists nothing (no `save_sync_state` call, `sync_state` rows
untouched); and no intra-date cursor is ever persisted — every persisted
row carries the run's initial `None` cursor. -/
theorem sync_state_saved_per_successful_date
    (api : Nat → Option String → Except String ApiPage)
    (saveOk : LifelogEntry → Bool) (fuel : Nat) (user : String) (now : Int) :
    (∀ d ds st w calls n ts,
      sync_date_with_cursor (api d) saveOk user now fuel w.transcripts = some (.ok (n, ts)) →
      sync_dates api saveOk fuel user now (d :: ds) st w calls
        = sync_dates api saveOk fuel user now ds
            { st with total_synced := st.total_synced + n, last_sync_date := d }
            { w with transcripts := ts
                     syncStates := save_sync_state w.syncStates
                       { user_id := user, service_name := "limitless", last_sync_date := d
                         last_cursor := st.last_cursor, total_synced := st.total_synced + n
                         last_sync_at := now } }
            (calls ++ [{ user_id := user, service_name := "limitless", last_sync_date := d
                         last_cursor := st.last_cursor, total_synced := st.total_synced + n
                         last_sync_at := now }])) ∧
    (∀ d ds st w calls e ts,
      sync_date_with_cursor (api d) saveOk user now fuel w.transcripts = some (.error (e, ts)) →
      sync_dates api saveOk fuel user now (d :: ds) st w calls
        = sync_dates api saveOk fuel user now ds
            { st with errors := st.errors ++ [sync_error_message d e] }
            { w with transcripts := ts
                     syncErrors := w.syncErrors ++
                       [{ user_id := user, service_name := "limitless"
                          error_message := sync_error_message d e
                          details_date := toString d, occurred_at := now }] }
            calls) ∧
    (∀ start endOpt today w st1 w1 calls1,
      sync_from_date api saveOk fuel user now start endOpt today w
          = .ok (some (st1, w1, calls1)) →
      ∀ r ∈ calls1, r.last_cursor = none) := by
  refine ⟨?_, ?_, ?_⟩
  · intro d ds st w calls n ts h
    simp only [sync_dates]
    rw [h]
  · intro d ds st w calls e ts h
    simp only [sync_dates]
    rw [h]
  · intro start endOpt today w st1 w1 calls1 h r hr
    unfold sync_from_date at h
    by_cases hlt : endOpt.getD today < start
    · simp [hlt] at h
    · simp only [hlt, if_neg, ite_false] at h
      have h2 := Except.ok.inj h
      obtain ⟨_, hcalls⟩ := sync_dates_calls_cursor api saveOk fuel user now _ _ _ _ _ _ _ h2
      rcases hcalls r hr with hmem | hcur
      · simp at hmem
      · exact hcur

/-- Witness for C4 (amended) at concrete runs: a succeeding date appends
one persisted row with that date and the running total; a failing date
leaves history and rows untouched; the persisted row of a successful run
carries cursor `None`. -/
theorem sync_state_saved_per_successful_date_witness :
    (sync_dates (fun _ _ => .ok { lifelogs := [], nextCursor := none }) (fun _ => true)
        1 "u" 0 [0]
        { last_sync_date := 0, last_cursor := none, total_synced := 0, errors := [] }
        { transcripts := { rows := [], nextId := 0 }, syncStates := [], syncErrors := [] } []
      = sync_dates (fun _ _ => .ok { lifelogs := [], nextCursor := none }) (fun _ => true)
          1 "u" 0 []
          { last_sync_date := 0, last_cursor := none, total_synced := 0, errors := [] }
          { transcripts := { rows := [], nextId := 0 }
            syncStates := save_sync_state []
              { user_id := "u", service_name := "limitless", last_sync_date := 0
                last_cursor := none, total_synced := 0, last_sync_at := 0 }
            syncErrors := [] }
          ([] ++ [{ user_id := "u", service_name := "limitless", last_sync_date := 0
                    last_cursor := none, total_synced := 0, last_sync_at := 0 }])) ∧
    (sync_dates (fun _ _ => .error "boom") (fun _ => true) 1 "u" 0 [0]
        { last_sync_date := 0, last_cursor := none, total_synced := 0, errors := [] }
        { transcripts := { rows := [], nextId := 0 }, syncStates := [], syncErrors := [] } []
      = sync_dates (fun _ _ => .error "boom") (fun _ => true) 1 "u" 0 []
          { last_sync_date := 0, last_cursor := none, total_synced := 0
            errors := [] ++ [sync_error_message 0 "boom"] }
          { transcripts := { rows := [], nextId := 0 }, syncStates := []
            syncErrors := [] ++
              [{ user_id := "u", service_name := "limitless"
                 error_message := sync_error_message 0 "boom"
                 details_date := toString 0, occurred_at := 0 }] }
          []) ∧
    ({ user_id := "u", service_name := "limitless", last_sync_date := 0
       last_cursor := none, total_synced := 0, last_sync_at := 0 : SyncStateRow }.last_cursor
      = none) := by
  refine ⟨?_, ?_, ?_⟩
  · exact (sync_state_saved_per_successful_date _ _ _ _ _).1 0 [] _ _ [] 0 _ rfl
  · exact (sync_state_saved_per_successful_date _ _ _ _ _).2.1 0 [] _ _ [] "boom" _ rfl
  · exact (sync_state_saved_per_successful_date
        (fun _ _ => .ok { lifelogs := [], nextCursor := none }) (fun _ => true)
        1 "u" 0).2.2 0 (some 0) 0
      { transcripts := { rows := [], nextId := 0 }, syncStates := [], syncErrors := [] }
      { last_sync_date := 0, last_cursor := none, total_synced := 0, errors := [] }
      { transcripts := { rows := [], nextId := 0 }
        syncStates := [{ user_id := "u", service_name := "limitless", last_sync_date := 0
                         last_cursor := none, total_synced := 0, last_sync_at := 0 }]
        syncErrors := [] }
      [{ user_id := "u", service_name := "limitless", last_sync_date := 0
         last_cursor := none, total_synced := 0, last_sync_at := 0 }] rfl
      { user_id := "u", service_name := "limitless", last_sync_date := 0
        last_cursor := none, total_synced := 0, last_sync_at := 0 } (by simp)

/-! ## Cursor-loop termination (C9, C10) -/

/-- The page chain the provider serves from a cursor: the successive pages
the loop will observe, defined when the provider answers without error and
reports no further page within the given number of requests. -/
def chain_pages (api : Option String → Except String ApiPage) :
    Nat → Option String → Option (List ApiPage)
  | 0, _ => none
  | fuel + 1, cursor =>
    match api cursor with
    | .error _ => none
    | .ok page =>
      if optTruthy page.nextCursor then
        (chain_pages api fuel page.nextCursor).map fun ps => page :: ps
      else some [page]

/-- The batch count is the number of lifelogs whose save succeeds. -/
theorem process_lifelog_batch_count (saveOk : LifelogEntry → Bool) (user : String)
    (now : Int) : ∀ store ls,
    (process_lifelog_batch saveOk user now store ls).1 = (ls.filter saveOk).length := by
  intro store ls
  induction ls generalizing store with
  | nil => rfl
  | cons l ls ih =>
    by_cases h : saveOk l <;>
      simp [process_lifelog_batch, h, List.filter_cons, ih]

theorem sync_date_loop_chain (api : Option String → Except String ApiPage)
    (user : String) (now : Int) :
    ∀ fuel cursor acc store ps,
      chain_pages api fuel cursor = some ps →
      ∃ ts, sync_date_loop api (fun _ => true) user now fuel cursor acc store
        = some (.ok (acc + (ps.map fun p => p.lifelogs.length).sum, ts)) := by
  intro fuel
  induction fuel with
  | zero =>
    intro cursor acc store ps h
    simp [chain_pages] at h
  | succ fuel ih =>
    intro cursor acc store ps h
    simp only [chain_pages] at h
    split at h
    · simp at h
    · rename_i page ha
      have hfetch : list_lifelogs_by_date api cursor
          = .ok { lifelogs := page.lifelogs, next_cursor := page.nextCursor
                  has_more := optTruthy page.nextCursor } := by
        simp [list_lifelogs_by_date, ha, Except.map]
      have hcount : (process_lifelog_batch (fun _ => true) user now store page.lifelogs).1
          = page.lifelogs.length := by
        rw [process_lifelog_batch_count]
        simp
      by_cases hm : optTruthy page.nextCursor = true
      · rw [if_pos hm] at h
        rcases hc : chain_pages api fuel page.nextCursor with _ | ps0
        · rw [hc] at h; simp at h
        · rw [hc] at h
          simp at h
          obtain ⟨ts, hts⟩ := ih page.nextCursor (acc + page.lifelogs.length)
            (process_lifelog_batch (fun _ => true) user now store page.lifelogs).2 ps0 hc
          refine ⟨ts, ?_⟩
          simp only [sync_date_loop, hfetch]
          rw [if_pos hm, hcount, hts]
          subst h
          simp [Nat.add_assoc]
      · rw [if_neg hm] at h
        simp only [Option.some.injEq] at h
        refine ⟨(process_lifelog_batch (fun _ => true) user now store page.lifelogs).2, ?_⟩
        simp only [sync_date_loop, hfetch]
        rw [if_neg hm, hcount]
        subst h
        simp

/-- C9: for a finite page chain (the provider eventually reports no next
cursor), the per-date cursor loop terminates and returns the sum of the
sizes of all pages fetched for that date. -/
theorem cursor_loop_terminates_page_sum (api : Option String → Except String ApiPage)
    (user : String) (now : Int) (fuel : Nat) (store : TranscriptStore) (ps : List ApiPage)
    (h : chain_pages api fuel none = some ps) :
    ∃ ts, sync_date_with_cursor api (fun _ => true) user now fuel store
      = some (.ok ((ps.map fun p => p.lifelogs.length).sum, ts)) := by
  obtain ⟨ts, hts⟩ := sync_date_loop_chain api user now fuel none 0 store ps h
  exact ⟨ts, by simpa using hts⟩

/-- Witness for C9: a provider serving two pages (2 items then 1 item)
makes the loop stop and return 3. -/
theorem cursor_loop_terminates_page_sum_witness :
    let mk : String → LifelogEntry := fun i =>
      { id := i, title := "t", content := "c", markdown := "m"
        created_at := 0, updated_at := 0 }
    let api : Option String → Except String ApiPage := fun c =>
      match c with
      | none => .ok { lifelogs := [mk "a", mk "b"], nextCursor := some "c1" }
      | some _ => .ok { lifelogs := [mk "x"], nextCursor := none }
    ∃ ts, sync_date_with_cursor api (fun _ => true) "u" 0 2 { rows := [], nextId := 0 }
      = some (.ok ((([{ lifelogs := [mk "a", mk "b"], nextCursor := some "c1" },
                      { lifelogs := [mk "x"], nextCursor := none }] : List ApiPage).map
                      fun p => p.lifelogs.length).sum, ts)) := by
  intro mk api
  exact cursor_loop_terminates_page_sum api "u" 0 2 { rows := [], nextId := 0 } _ rfl

/-! ## Per-item save failure isolation (C10) -/

/-- The outcome shape of the cursor loop, as determined by the provider's
responses alone: fuel exhaustion, a raised error, or normal completion. -/
def fetch_shape (api : Option String → Except String ApiPage) :
    Nat → Option String → Option (Except String Unit)
  | 0, _ => none
  | fuel + 1, cursor =>
    match api cursor with
    | .error e => some (.error e)
    | .ok page =>
      if optTruthy page.nextCursor then fetch_shape api fuel page.nextCursor
      else some (.ok ())

/-- When every fetch of a date succeeds, the cursor loop completes normally,
whatever the per-item save outcomes are. -/
theorem sync_date_loop_ok_of_shape (api : Option String → Except String ApiPage)
    (saveOk : LifelogEntry → Bool) (user : String) (now : Int) :
    ∀ fuel cursor acc store,
      fetch_shape api fuel cursor = some (.ok ()) →
      ∃ n ts, sync_date_loop api saveOk user now fuel cursor acc store
        = some (.ok (n, ts)) := by
  intro fuel
  induction fuel with
  | zero =>
    intro cursor acc store h
    simp [fetch_shape] at h
  | succ fuel ih =>
    intro cursor acc store h
    simp only [fetch_shape] at h
    split at h
    · simp at h
    · rename_i page ha
      have hfetch : list_lifelogs_by_date api cursor
          = .ok { lifelogs := page.lifelogs, next_cursor := page.nextCursor
                  has_more := optTruthy page.nextCursor } := by
        simp [list_lifelogs_by_date, ha, Except.map]
      by_cases hm : optTruthy page.nextCursor = true
      · rw [if_pos hm] at h
        obtain ⟨n, ts, hts⟩ := ih page.nextCursor
          (acc + (process_lifelog_batch saveOk user now store page.lifelogs).1)
          (process_lifelog_batch saveOk user now store page.lifelogs).2 h
        refine ⟨n, ts, ?_⟩
        simp only [sync_date_loop, hfetch]
        rw [if_pos hm]
        exact hts
      · refine ⟨acc + (process_lifelog_batch saveOk user now store page.lifelogs).1,
          (process_lifelog_batch saveOk user now store page.lifelogs).2, ?_⟩
        simp only [sync_date_loop, hfetch]
        rw [if_neg hm]

/-- When every date's fetches succeed, the whole run completes with its
error list and the `sync_errors` log untouched, for every save oracle. -/
theorem sync_dates_no_errors_of_saves (api : Nat → Option String → Except String ApiPage)
    (saveOk : LifelogEntry → Bool) (fuel : Nat) (user : String) (now : Int) :
    ∀ ds st w calls,
      (∀ d ∈ ds, fetch_shape (api d) fuel none = some (.ok ())) →
      ∃ st1 w1 calls1,
        sync_dates api saveOk fuel user now ds st w calls = some (st1, w1, calls1) ∧
        st1.errors = st.errors ∧ w1.syncErrors = w.syncErrors := by
  intro ds
  induction ds with
  | nil =>
    intro st w calls _
    exact ⟨st, w, calls, rfl, rfl, rfl⟩
  | cons d ds ih =>
    intro st w calls hsh
    obtain ⟨n, ts, hts⟩ := sync_date_loop_ok_of_shape (api d) saveOk user now fuel none 0
      w.transcripts (hsh d (by simp))
    obtain ⟨st1, w1, calls1, hrun, herr, hlog⟩ := ih
      { st with total_synced := st.total_synced + n, last_sync_date := d }
      { w with transcripts := ts
               syncStates := save_sync_state w.syncStates
                 { user_id := user, service_name := "limitless", last_sync_date := d
                   last_cursor := st.last_cursor, total_synced := st.total_synced + n
                   last_sync_at := now } }
      (calls ++ [{ user_id := user, service_name := "limitless", last_sync_date := d
                   last_cursor := st.last_cursor, total_synced := st.total_synced + n
                   last_sync_at := now }])
      (fun d2 hd2 => hsh d2 (by simp [hd2]))
    refine ⟨st1, w1, calls1, ?_, herr, hlog⟩
    simp only [sync_dates, sync_date_with_cursor] at hrun ⊢
    rw [hts]
    exact hrun

/-- C10: a failed per-item save is caught inside the batch loop: the batch
skips that item and continues (store untouched by the failing item), the
batch count is exactly the number of items whose save succeeded, and a run
whose fetches all succeed ends with no run error and no `sync_errors` row,
whatever saves failed — the only effect is a smaller synced count. -/
theorem save_failure_isolated (user : String) (now : Int) :
    (∀ (saveOk : LifelogEntry → Bool) store l ls, saveOk l = false →
      process_lifelog_batch saveOk user now store (l :: ls)
        = process_lifelog_batch saveOk user now store ls) ∧
    (∀ (saveOk : LifelogEntry → Bool) store ls,
      (process_lifelog_batch saveOk user now store ls).1 = (ls.filter saveOk).length ∧
      (ls.filter saveOk).length ≤ ls.length) ∧
    (∀ (api : Nat → Option String → Except String ApiPage) (saveOk : LifelogEntry → Bool)
        (fuel : Nat) ds st w calls,
      (∀ d ∈ ds, fetch_shape (api d) fuel none = some (.ok ())) →
      ∃ st1 w1 calls1,
        sync_dates api saveOk fuel user now ds st w calls = some (st1, w1, calls1) ∧
        st1.errors = st.errors ∧ w1.syncErrors = w.syncErrors) := by
  refine ⟨?_, ?_, ?_⟩
  · intro saveOk store l ls h
    simp [process_lifelog_batch, h]
  · intro saveOk store ls
    exact ⟨process_lifelog_batch_count saveOk user now store ls, List.length_filter_le _ _⟩
  · intro api saveOk fuel ds st w calls hsh
    exact sync_dates_no_errors_of_saves api saveOk fuel user now ds st w calls hsh

/-- Witness for C10: a batch of two items whose first save fails yields a
count of 1 with no run error and no logged sync error. -/
theorem save_failure_isolated_witness :
    let bad : LifelogEntry :=
      { id := "bad", title := "t", content := "c", markdown := "m"
        created_at := 0, updated_at := 0 }
    let good : LifelogEntry :=
      { id := "good", title := "t", content := "c", markdown := "m"
        created_at := 0, updated_at := 0 }
    let saveOk : LifelogEntry → Bool := fun l => l.id != "bad"
    (process_lifelog_batch saveOk "u" 0 { rows := [], nextId := 0 } [bad, good]
      = process_lifelog_batch saveOk "u" 0 { rows := [], nextId := 0 } [good]) ∧
    ((process_lifelog_batch saveOk "u" 0 { rows := [], nextId := 0 } [bad, good]).1
        = ([bad, good].filter saveOk).length ∧
      ([bad, good].filter saveOk).length ≤ [bad, good].length) ∧
    (∃ st1 w1 calls1,
      sync_dates (fun _ _ => .ok { lifelogs := [bad, good], nextCursor := none })
          saveOk 1 "u" 0 [0]
          { last_sync_date := 0, last_cursor := none, total_synced := 0, errors := [] }
          { transcripts := { rows := [], nextId := 0 }, syncStates := [], syncErrors := [] }
          []
        = some (st1, w1, calls1) ∧
      st1.errors = ([] : List String) ∧
      w1.syncErrors
        = ({ transcripts := { rows := [], nextId := 0 }, syncStates := []
             syncErrors := [] : World }).syncErrors) := by
  intro bad good saveOk
  refine ⟨?_, ?_, ?_⟩
  · exact (save_failure_isolated "u" 0).1 saveOk _ bad [good] (by decide)
  · exact (save_failure_isolated "u" 0).2.1 saveOk _ [bad, good]
  · exact (save_failure_isolated "u" 0).2.2
      (fun _ _ => .ok { lifelogs := [bad, good], nextCursor := none }) saveOk 1 [0] _ _ []
      (by intro d _; rfl)

/-! ## Conflict detection (services/calendar_sync.py, `_detect_conflicts`) -/

/-- One row of the `calendar_events` table, with the fields the conflict
query reads. -/
structure CalendarEventRow where
  id : Nat
  user_id : String
  source : String
  sync_status : String
  start_time : Int
  end_time : Int
deriving Repr, DecidableEq

/-- One conflict dictionary built by `_detect_conflicts`. -/
structure Conflict where
  ctype : String
  events : List Nat
  description : String
deriving Repr, DecidableEq

/-- The conflict record built for a flagged pair. -/
def conflict_of (e1 e2 : CalendarEventRow) : Conflict :=
  { ctype := "time_overlap"
    events := [e1.id, e2.id]
    description := "Time overlap between " ++ e1.source ++ " and " ++ e2.source ++ " events" }

/-- The WHERE clause of the self-join in `_detect_conflicts`. -/
def conflict_pred (user : String) (e1 e2 : CalendarEventRow) : Bool :=
  e1.user_id == e2.user_id && e1.user_id == user && e1.id != e2.id &&
  e1.sync_status != "deleted" && e2.sync_status != "deleted" &&
  decide (e1.start_time < e2.end_time) && decide (e1.end_time > e2.start_time) &&
  e1.source != e2.source

/-- `CalendarSyncService._detect_conflicts`: one conflict record per ordered
row pair satisfying the join condition. -/
def detect_conflicts (events : List CalendarEventRow) (user : String) : List Conflict :=
  events.bind fun e1 =>
    (events.filter fun e2 => conflict_pred user e1 e2).map fun e2 => conflict_of e1 e2

/-- C6: over a user's non-deleted events (with distinct row ids, the table's
primary key), a pair is flagged iff the sources differ and the intervals
strictly overlap; in particular same-source overlaps are never flagged and
different-source overlaps always are. -/
theorem detect_conflicts_iff (events : List CalendarEventRow) (user : String)
    (e1 e2 : CalendarEventRow) (hid : (events.map fun e => e.id).Nodup)
    (he1 : e1 ∈ events) (he2 : e2 ∈ events)
    (hu1 : e1.user_id = user) (hu2 : e2.user_id = user)
    (hd1 : e1.sync_status ≠ "deleted") (hd2 : e2.sync_status ≠ "deleted")
    (hne : e1.id ≠ e2.id) :
    conflict_of e1 e2 ∈ detect_conflicts events user ↔
      (e1.source ≠ e2.source ∧ e1.start_time < e2.end_time ∧ e1.end_time > e2.start_time) := by
  constructor
  · intro hmem
    rw [detect_conflicts, List.mem_bind] at hmem
    obtain ⟨a, ha, hmem2⟩ := hmem
    rw [List.mem_map] at hmem2
    obtain ⟨b, hb, heq⟩ := hmem2
    rw [List.mem_filter] at hb
    obtain ⟨hbmem, hpred⟩ := hb
    have hids : a.id = e1.id ∧ b.id = e2.id := by
      have := congrArg Conflict.events heq
      simpa [conflict_of] using this
    have ha1 : a = e1 := List.inj_on_of_nodup_map hid ha he1 hids.1
    have hb2 : b = e2 := List.inj_on_of_nodup_map hid hbmem he2 hids.2
    subst ha1; subst hb2
    simp only [conflict_pred, Bool.and_eq_true, bne_iff_ne, beq_iff_eq,
      decide_eq_true_eq] at hpred
    refine ⟨?_, ?_, ?_⟩ <;> tauto
  · intro ⟨hs, ho1, ho2⟩
    rw [detect_conflicts, List.mem_bind]
    refine ⟨e1, he1, ?_⟩
    rw [List.mem_map]
    refine ⟨e2, ?_, rfl⟩
    rw [List.mem_filter]
    refine ⟨he2, ?_⟩
    simp [conflict_pred, hu1, hu2, hne, hd1, hd2, ho1, ho2, hs]

/-- Witness for C6: a pair of non-deleted, different-source, overlapping
events of the same user is flagged. -/
theorem detect_conflicts_iff_witness :
    let g : CalendarEventRow :=
      { id := 1, user_id := "u", source := "google", sync_status := "synced"
        start_time := 0, end_time := 10 }
    let m : CalendarEventRow :=
      { id := 2, user_id := "u", source := "limitless", sync_status := "synced"
        start_time := 5, end_time := 15 }
    conflict_of g m ∈ detect_conflicts [g, m] "u" ↔
      (g.source ≠ m.source ∧ g.start_time < m.end_time ∧ g.end_time > m.start_time) := by
  intro g m
  exact detect_conflicts_iff [g, m] "u" g m (by decide) (by simp) (by simp)
    rfl rfl (by decide) (by decide) (by decide)

/-! ## Token lifecycle (services/calendar_sync.py, `_get_valid_access_token`) -/

/-- One row of the `user_calendar_tokens` table. -/
structure TokenRow where
  access_token_encrypted : String
  refresh_token_encrypted : Option String
  expires_at : Option Int
deriving Repr, DecidableEq

/-- The result of `GoogleCalendarService.refresh_access_token`. -/
structure RefreshResult where
  access_token : String
  expires_at : Int
deriving Repr, DecidableEq

/-- The guard `expires_at and utcnow() >= expires_at - timedelta(minutes=5)`:
with no expiry on record the refresh path is skipped. -/
def needs_refresh_at (now : Int) : Option Int → Bool
  | some exp => decide (now ≥ exp - 5 * 60)
  | none => false

/-- `CalendarSyncService._get_valid_access_token`, as a function of the
stored token row. `decrypt`/`encrypt` are the opaque token codecs and
`refresh_access_token` the provider refresh call; `now` is `utcnow()`.
Returns the access token handed to the caller (`none` = "no valid token")
and the stored row after the call. -/
def get_valid_access_token (decrypt encrypt : String → String)
    (refresh_access_token : String → RefreshResult) (now : Int)
    (token_data : Option TokenRow) : Option String × Option TokenRow :=
  match token_data with
  | none => (none, none)
  | some t =>
    let access_token := decrypt t.access_token_encrypted
    if needs_refresh_at now t.expires_at then
      if optTruthy t.refresh_token_encrypted then
        let refresh_token := decrypt (t.refresh_token_encrypted.getD "")
        let new_tokens := refresh_access_token refresh_token
        (some new_tokens.access_token,
         some { t with access_token_encrypted := encrypt new_tokens.access_token
                       expires_at := some new_tokens.expires_at })
      else (none, some t)
    else (some access_token, some t)

/-- C7: with an expiry on record, a token within 5 minutes of expiry is
refreshed before use and the stored token and expiry are replaced; one
outside the window is returned unrefreshed and the row kept; and inside
the window with no refresh token the result is the distinct "no valid
token" outcome (`none`) with the row kept. -/
theorem token_refresh_window (decrypt encrypt : String → String)
    (refresh_access_token : String → RefreshResult) (now : Int)
    (t : TokenRow) (exp : Int) (hexp : t.expires_at = some exp) :
    (now ≥ exp - 5 * 60 → optTruthy t.refresh_token_encrypted = true →
      get_valid_access_token decrypt encrypt refresh_access_token now (some t)
        = (some (refresh_access_token (decrypt (t.refresh_token_encrypted.getD ""))).access_token,
           some { t with
             access_token_encrypted :=
               encrypt (refresh_access_token (decrypt (t.refresh_token_encrypted.getD ""))).access_token
             expires_at :=
               some (refresh_access_token (decrypt (t.refresh_token_encrypted.getD ""))).expires_at })) ∧
    (now < exp - 5 * 60 →
      get_valid_access_token decrypt encrypt refresh_access_token now (some t)
        = (some (decrypt t.access_token_encrypted), some t)) ∧
    (now ≥ exp - 5 * 60 → optTruthy t.refresh_token_encrypted = false →
      get_valid_access_token decrypt encrypt refresh_access_token now (some t)
        = (none, some t)) := by
  refine ⟨?_, ?_, ?_⟩
  · intro hwin htr
    have hn : needs_refresh_at now t.expires_at = true := by
      rw [hexp]
      exact decide_eq_true hwin
    simp only [get_valid_access_token]
    rw [if_pos hn, if_pos htr]
  · intro hwin
    have hn : needs_refresh_at now t.expires_at = false := by
      rw [hexp]
      exact decide_eq_false (not_le.mpr hwin)
    simp only [get_valid_access_token]
    rw [if_neg (by simp [hn])]
  · intro hwin htr
    have hn : needs_refresh_at now t.expires_at = true := by
      rw [hexp]
      exact decide_eq_true hwin
    simp only [get_valid_access_token]
    rw [if_pos hn, if_neg (by simp [htr])]

/-- Witness for C7: at `now = 1000`, a token expiring at 1180 (3 minutes
out) is refreshed; one expiring at 4600 (1 hour out) is returned as is; a
3-minutes-out token without refresh token yields `none`. -/
theorem token_refresh_window_witness :
    let dec : String → String := fun s => s
    let enc : String → String := fun s => s
    let ref : String → RefreshResult := fun _ => { access_token := "fresh", expires_at := 9999 }
    (get_valid_access_token dec enc ref 1000
        (some { access_token_encrypted := "old", refresh_token_encrypted := some "r"
                expires_at := some 1180 })
      = (some "fresh",
         some { access_token_encrypted := "fresh", refresh_token_encrypted := some "r"
                expires_at := some 9999 })) ∧
    (get_valid_access_token dec enc ref 1000
        (some { access_token_encrypted := "old", refresh_token_encrypted := some "r"
                expires_at := some 4600 })
      = (some "old",
         some { access_token_encrypted := "old", refresh_token_encrypted := some "r"
                expires_at := some 4600 })) ∧
    (get_valid_access_token dec enc ref 1000
        (some { access_token_encrypted := "old", refresh_token_encrypted := none
                expires_at := some 1180 })
      = (none,
         some { access_token_encrypted := "old", refresh_token_encrypted := none
                expires_at := some 1180 })) := by
  intro dec enc ref
  refine ⟨?_, ?_, ?_⟩
  · exact (token_refresh_window dec enc ref 1000 _ 1180 rfl).1 (by norm_num) (by decide)
  · exact (token_refresh_window dec enc ref 1000 _ 4600 rfl).2.1 (by norm_num)
  · exact (token_refresh_window dec enc ref 1000 _ 1180 rfl).2.2 (by norm_num) (by decide)

/-! ## Calendar import mode selection (`_sync_google_calendar` / `get_events`) -/

/-- The query parameters `GoogleCalendarService.get_events` sends: with a
truthy sync token an incremental request carrying only the token; otherwise
a full request carrying whichever time bounds were supplied. -/
structure EventsQuery where
  syncToken : Option String
  timeMin : Option Int
  timeMax : Option Int
deriving Repr, DecidableEq

/-- The parameter selection inside `GoogleCalendarService.get_events`. -/
def get_events_query (time_min time_max : Option Int) (sync_token : Option String) :
    EventsQuery :=
  if optTruthy sync_token then
    { syncToken := sync_token, timeMin := none, timeMax := none }
  else
    { syncToken := none, timeMin := time_min, timeMax := time_max }

/-- The sync-parameter determination of `_sync_google_calendar` composed
with `get_events`: the token is dropped when `force_full_sync` is set, and
the full-pull window is `[now - 30 days, now + 90 days]` (seconds). -/
def sync_google_query (force_full_sync : Bool) (next_sync_token : Option String)
    (now : Int) : EventsQuery :=
  let sync_token := if force_full_sync then none else next_sync_token
  let time_min := if optTruthy sync_token then none else some (now - 30 * 86400)
  let time_max := if optTruthy sync_token then none else some (now + 90 * 86400)
  get_events_query time_min time_max sync_token

/-- C8: with a stored (truthy) `next_sync_token` and `force_full_sync`
false, the provider is queried incrementally with that token and no time
bounds; otherwise (no usable token, or forced) a full pull is requested
with the window exactly `[now - 30 days, now + 90 days]`. -/
theorem calendar_import_mode (force_full_sync : Bool) (tok : Option String) (now : Int) :
    (optTruthy tok = true → force_full_sync = false →
      sync_google_query force_full_sync tok now
        = { syncToken := tok, timeMin := none, timeMax := none }) ∧
    (optTruthy tok = false ∨ force_full_sync = true →
      sync_google_query force_full_sync tok now
        = { syncToken := none, timeMin := some (now - 30 * 86400)
            timeMax := some (now + 90 * 86400) }) := by
  constructor
  · intro htok hforce
    subst hforce
    simp [sync_google_query, get_events_query, htok]
  · intro h
    rcases h with htok | hforce
    · cases hf : force_full_sync
      · simp [sync_google_query, get_events_query, htok]
      · simp [sync_google_query, get_events_query, optTruthy]
    · subst hforce
      simp [sync_google_query, get_events_query, optTruthy]

/-- Witness for C8: a stored token is used incrementally; a forced full
sync at time 0 uses the window `[-30d, +90d]`. -/
theorem calendar_import_mode_witness :
    (sync_google_query false (some "tok") 0
      = { syncToken := some "tok", timeMin := none, timeMax := none }) ∧
    (sync_google_query true (some "tok") 0
      = { syncToken := none, timeMin := some (0 - 30 * 86400)
          timeMax := some (0 + 90 * 86400) }) :=
  ⟨(calendar_import_mode false (some "tok") 0).1 (by decide) rfl,
   (calendar_import_mode true (some "tok") 0).2 (Or.inr rfl)⟩

end CcoPinai
